import Mathlib

/-
  Verification of `scripts/retracediff.py`.

  The script runs two retrace subprocesses, decodes the PNM snapshots each one
  streams on stdout, pairs the snapshots in lockstep, scores visual similarity,
  and tracks divergence with two integers `last_good` / `last_bad`, requesting
  a state-level diff (`diff_state`) on the transition into a run of bad frames.

  Embedding choices:
  - byte streams are `List Char` (the script is Python 2, where `str` is bytes);
  - the similarity score (a Python float produced by the external `Comparer`)
    is modelled as `Rat`;
  - fatal failures (`assert`, `ValueError` from `int`/unpacking, PIL errors)
    become `Except` errors named after the spec's error taxonomy;
  - side effects (stdout writes, image saves, state-dump subprocess launches)
    become an explicit list of `Event`s.
-/

namespace Retracediff

/-- The whitespace characters recognised by Python `str.strip` / `split`. -/
def isSpaceChar (c : Char) : Bool :=
  c = ' ' || c = '\t' || c = '\n' || c = '\r' || c = '\x0b' || c = '\x0c'

/-- Python `s.lstrip()`. -/
def pyStripL (s : List Char) : List Char := s.dropWhile isSpaceChar

/-- Python `s.rstrip()`. -/
def pyRstrip (s : List Char) : List Char := (s.reverse.dropWhile isSpaceChar).reverse

/-- Python `s.strip()`. -/
def pyStrip (s : List Char) : List Char := pyRstrip (pyStripL s)

/-- Numeric value of a decimal digit character. -/
def digitVal (c : Char) : Nat := c.toNat - 48

/-- Parse a nonempty all-digit string as a decimal natural number. -/
def parseDigits (l : List Char) : Option Nat :=
  if l.isEmpty then none
  else if l.all (fun c => c.isDigit) then
    some (l.foldl (fun a c => 10 * a + digitVal c) 0)
  else none

/-- Python `int(s)` on a base-10 string: strips surrounding whitespace,
allows an optional sign, fails (`ValueError`) on anything else. -/
def pyInt (s : List Char) : Option Int :=
  let t := pyStrip s
  if t.head? = some '-' then (parseDigits t.tail).map (fun n => -(n : Int))
  else if t.head? = some '+' then (parseDigits t.tail).map (fun n => (n : Int))
  else if t.isEmpty then none
  else (parseDigits t).map (fun n => (n : Int))

/-- Worker for Python `s.split()` (split on whitespace runs, no empty tokens);
`acc` holds the current token, reversed. -/
def splitAux : List Char → List Char → List (List Char)
  | [], acc => if acc.isEmpty then [] else [acc.reverse]
  | c :: cs, acc =>
    if isSpaceChar c then
      if acc.isEmpty then splitAux cs [] else acc.reverse :: splitAux cs []
    else splitAux cs (c :: acc)

/-- Python `s.split()` with no arguments. -/
def pySplit (l : List Char) : List (List Char) := splitAux l []

/-- The decimal digit character for `d < 10`. -/
def digitChar10 (d : Nat) : Char := Char.ofNat (48 + d)

/-- Fuel-indexed worker for decimal rendering, most-significant digit first;
fuel `n + 1` always suffices since the argument shrinks by a factor of 10. -/
def natToDigitsAux : Nat → Nat → List Char → List Char
  | 0, _, acc => acc
  | fuel + 1, n, acc =>
    if n < 10 then digitChar10 n :: acc
    else natToDigitsAux fuel (n / 10) (digitChar10 (n % 10) :: acc)

/-- Decimal rendering of a natural number (Python `'%u' % n` / `str(n)`). -/
def natChars (n : Nat) : List Char := natToDigitsAux (n + 1) n []

/-- Python `stream.readline()`: the line including its trailing newline,
and the rest of the stream.  At end of stream the line is empty. -/
def readLine : List Char → List Char × List Char
  | [] => ([], [])
  | c :: cs =>
    if c = '\n' then ([c], cs)
    else
      let p := readLine cs
      (c :: p.1, p.2)

/-- Fuel-indexed worker for the comment-reading loop of `read_pnm`.  Each
iteration consumes at least one character of the stream, so fuel equal to the
stream length always suffices; at fuel 0 the stream is necessarily empty and
the branches coincide. -/
def readCommentsAux : Nat → List Char → List Char × List Char × List Char
  | 0, s => ([], (readLine s).1, (readLine s).2)
  | fuel + 1, s =>
    if (readLine s).1.head? = some '#' then
      let p := readCommentsAux fuel (readLine s).2
      ((readLine s).1.tail ++ p.1, p.2.1, p.2.2)
    else
      ([], (readLine s).1, (readLine s).2)

/-- The comment-reading loop of `read_pnm`: consumes `'#'`-prefixed lines,
concatenating their content after the marker (newline included, as
`comment += line[1:]` does), and returns the accumulated comment, the first
non-comment line, and the remaining stream. -/
def readComments (s : List Char) : List Char × List Char × List Char :=
  readCommentsAux s.length s

/-- The error taxonomy for frame decoding (spec §7): the PIL
`Image.frombuffer` failure on insufficient data is `TruncatedStream`; every
other `assert` / `ValueError` along the way is `MalformedFrame`, except the
maximum-sample-value check which is `UnsupportedFormat`. -/
inductive DecodeError
  | MalformedFrame
  | UnsupportedFormat
  | TruncatedStream
deriving DecidableEq

/-- One decoded snapshot: pixel buffer, dimensions, and the raw comment
("tag") text accumulated from the `'#'` lines. -/
structure Frame where
  width : Nat
  height : Nat
  data : List Char
  comment : List Char
deriving DecidableEq, Inhabited

/-- `read_pnm(stream)`: decode one PNM frame.  `.ok none` is end of stream
(`return None, None`); a decoded frame comes with the unconsumed rest of the
stream.  Mirrors the source line by line:
magic check, comment loop, `width, height = map(int, line.strip().split())`,
`maximum = int(stream.readline().strip())`, `assert maximum == 255`,
`data = stream.read(height * width * 3)`, `Image.frombuffer(...)` (which
rejects a short buffer — `TruncatedStream` — and negative dimensions —
`MalformedFrame`). -/
def read_pnm (s : List Char) : Except DecodeError (Option (Frame × List Char)) :=
  let magic := (readLine s).1
  let s1 := (readLine s).2
  if magic.isEmpty then .ok none
  else if pyRstrip magic = ['P', '6'] then
    let c := readComments s1
    let comment := c.1
    let line := c.2.1
    let s2 := c.2.2
    match pySplit (pyStrip line) with
    | [ws, hs] =>
      match pyInt ws, pyInt hs with
      | some w, some h =>
        let maxLine := (readLine s2).1
        let s3 := (readLine s2).2
        match pyInt maxLine with
        | some m =>
          if m = 255 then
            if w < 0 ∨ h < 0 then .error .MalformedFrame
            else
              let n := h.toNat * w.toNat * 3
              if s3.length < n then .error .TruncatedStream
              else .ok (some (⟨w.toNat, h.toNat, s3.take n, comment⟩, s3.drop n))
          else .error .UnsupportedFormat
        | none => .error .MalformedFrame
      | _, _ => .error .MalformedFrame
    | _ => .error .MalformedFrame
  else .error .MalformedFrame

/-- Encode a comment payload as the `'#'`-marked comment lines it was read
from (empty payload: no comment line at all). -/
def encodeComment (c : List Char) : List Char :=
  if c.isEmpty then [] else '#' :: c

/-- A frame byte sequence in the wire format `read_pnm` parses: magic line,
optional comment line, width/height line, maximum-sample-value line, then the
raw pixel bytes. -/
def writePnmWith (comment : List Char) (w h maxv : Nat) (data : List Char) : List Char :=
  'P' :: '6' :: '\n' ::
    (encodeComment comment ++
      (natChars w ++ ' ' :: natChars h ++ '\n' ::
        (natChars maxv ++ '\n' :: data)))

/-- Re-encode a decoded frame with the same header fields. -/
def writePnm (f : Frame) : List Char :=
  writePnmWith f.comment f.width f.height 255 f.data

/-- A comment payload that round-trips through `encodeComment`/`readComments`:
either empty or a single line ending in the newline `read_pnm` retains. -/
def commentWF (c : List Char) : Bool :=
  c.isEmpty || (c.getLast? = some '\n' && !(decide ('\n' ∈ c.dropLast)))

/-- The subset of the command-line options the main loop reads. -/
structure Options where
  diffPrefix : String
  threshold : Rat
deriving DecidableEq

/-- The divergence-tracking state: `last_good` and `last_bad`, both
initialised to the sentinel `-1`. -/
structure DivState where
  last_good : Int
  last_bad : Int
deriving DecidableEq

/-- Which of the two harness `Setup` instances an effect touches. -/
inductive Side
  | ref
  | src
deriving DecidableEq

/-- Observable effects of the main loop, in program order:
the per-frame report line, the three image saves, the `dump_state`
sub-invocations, and the rendered state diff appended to stdout. -/
inductive Event
  | scoreLine (callNo : Int) (score : Rat)
  | saveRefImage (callNo : Int)
  | saveSrcImage (callNo : Int)
  | saveDiffImage (callNo : Int)
  | dumpState (side : Side) (callNo : Int)
  | stateDiffOut (refCallNo srcCallNo : Int)
deriving DecidableEq

/-- `diff_state(setup, ref_call_no, src_call_no)`: dump the state at the two
calls on the given harness, then render their diff to stdout. -/
def diff_state (side : Side) (ref_call_no src_call_no : Int) : List Event :=
  [Event.dumpState side ref_call_no, Event.dumpState side src_call_no,
   Event.stateDiffOut ref_call_no src_call_no]

/-- One loop-body iteration after the images are paired and scored: the
report line, the image saves when `options.diff_prefix` is truthy, the
state diff when `last_bad < last_good`, and the `last_bad`/`last_good`
update (source lines 193–209). -/
def trackStep (opts : Options) (st : DivState) (call_no : Int) (precision : Rat) :
    DivState × List Event :=
  if precision < opts.threshold then
    let imgEvents :=
      if opts.diffPrefix ≠ "" then
        [Event.saveRefImage call_no, Event.saveSrcImage call_no, Event.saveDiffImage call_no]
      else []
    let diffEvents :=
      if st.last_bad < st.last_good then diff_state .src st.last_good call_no else []
    ({ st with last_bad := call_no },
      Event.scoreLine call_no precision :: (imgEvents ++ diffEvents))
  else
    ({ st with last_good := call_no }, [Event.scoreLine call_no precision])

/-- The divergence tracker run over a whole sequence of per-frame
comparison results `(call_no, precision)`. -/
def runTracker (opts : Options) : DivState → List (Int × Rat) → DivState × List Event
  | st, [] => (st, [])
  | st, (c, p) :: rest =>
    let step := trackStep opts st c p
    let r := runTracker opts step.1 rest
    (r.1, step.2 ++ r.2)

/-- Fatal protocol errors of the synchronizer: the
`assert ref_comment == src_comment` failure (carrying the two raw tags in
scope at the raise point), and the `int(ref_comment.strip())` `ValueError`. -/
inductive LoopError
  | desync (refComment srcComment : List Char)
  | badCallNo (comment : List Char)
deriving DecidableEq

/-- The `while True` main loop over the two already-decoded frame streams,
with the external `Comparer(...).precision()` as the oracle `score`.
Either stream running out ends the loop cleanly; a raw-tag mismatch is a
desync; otherwise the reference tag is parsed as the call index and the
iteration body `trackStep` runs.  Returns the events emitted before
termination and the terminal error, if any. -/
def mainLoop (score : Frame → Frame → Rat) (opts : Options) :
    DivState → List Frame → List Frame → List Event × Option LoopError
  | _, [], _ => ([], none)
  | _, _ :: _, [] => ([], none)
  | st, rf :: refs, sf :: srcs =>
    if rf.comment = sf.comment then
      match pyInt rf.comment with
      | some call_no =>
        let step := trackStep opts st call_no (score rf sf)
        let r := mainLoop score opts step.1 refs srcs
        (step.2 ++ r.1, r.2)
      | none => ([], some (.badCallNo rf.comment))
    else ([], some (.desync rf.comment sf.comment))

/-- Is this event the rendered state diff (one per `diff_state` request)? -/
def isStateDiffReq : Event → Bool
  | .stateDiffOut _ _ => true
  | _ => false

/-- How many state-diff requests a run emitted. -/
def countStateDiffs (evs : List Event) : Nat := (evs.filter isStateDiffReq).length

/-- Is this event a per-frame report line? -/
def isScoreLine : Event → Bool
  | .scoreLine _ _ => true
  | _ => false

/-- How many report lines a run emitted. -/
def countScoreLines (evs : List Event) : Nat := (evs.filter isScoreLine).length

/-- Is this event an image-file write? -/
def isImageEvent : Event → Bool
  | .saveRefImage _ => true
  | .saveSrcImage _ => true
  | .saveDiffImage _ => true
  | _ => false

/-- Is this event a `dump_state` sub-invocation? -/
def isDumpState : Event → Bool
  | .dumpState _ _ => true
  | _ => false

/-- How many `dump_state` sub-invocations a run launched. -/
def countDumpStates (evs : List Event) : Nat := (evs.filter isDumpState).length

/-- Number of maximal runs of `true` in a good/bad flag sequence, given
whether the previous flag was `true`. -/
def countRuns : Bool → List Bool → Nat
  | _, [] => 0
  | prevBad, b :: rest => (if b && !prevBad then 1 else 0) + countRuns b rest

/-- Number of maximal runs of bad (`true`) frames in a flag sequence. -/
def countBadRuns (l : List Bool) : Nat := countRuns false l

/-- Number of good-to-bad transitions in a flag sequence (`true` = bad),
given whether the previous frame was good; a leading bad run is counted
only when `prevGood` holds. -/
def countGoodToBad : Bool → List Bool → Nat
  | _, [] => 0
  | prevGood, b :: rest => (if b && prevGood then 1 else 0) + countGoodToBad (!b) rest

/-- The per-frame bad flags of a result sequence under the configured
threshold. -/
def badFlags (opts : Options) (results : List (Int × Rat)) : List Bool :=
  results.map (fun r => decide (r.2 < opts.threshold))

/-- The initial divergence-tracking state (`last_good = last_bad = -1`). -/
def initState : DivState := ⟨-1, -1⟩

/-- Default options: `--diff-prefix` defaults to `'.'`, `--threshold` to 12. -/
def opts0 : Options := ⟨".", 12⟩

/-- A constant similarity oracle, for concrete instantiations. -/
def score0 : Frame → Frame → Rat := fun _ _ => 100

/-- A constant below-threshold similarity oracle (every frame divergent). -/
def scoreBad : Frame → Frame → Rat := fun _ _ => 1

/-- A tiny 1×1 frame with the given tag text, for concrete instantiations. -/
def mkFrame (comment : List Char) : Frame := ⟨1, 1, ['a', 'b', 'c'], comment⟩

/-- The spec's Divergence Tracker example: scores `[20, 5, 3, 20, 4]` at
call indices `0..4`. -/
def resultsSpec : List (Int × Rat) := [(0, 20), (1, 5), (2, 3), (3, 20), (4, 4)]

/-! ### Lemmas about the Python string helpers -/

theorem readLine_append (a r : List Char) (h : '\n' ∉ a) :
    readLine (a ++ '\n' :: r) = (a ++ ['\n'], r) := by
  induction a with
  | nil => simp [readLine]
  | cons c a' ih =>
    have hc : ¬ c = '\n' := fun hh => h (hh ▸ List.mem_cons_self c a')
    have h' : '\n' ∉ a' := fun hm => h (List.mem_cons_of_mem _ hm)
    simp [readLine, hc, ih h']

theorem dropWhile_all_false (p : Char → Bool) (l : List Char)
    (h : ∀ c ∈ l, p c = false) : l.dropWhile p = l := by
  cases l with
  | nil => rfl
  | cons c t => simp [List.dropWhile, h c (List.mem_cons_self c t)]

theorem dropWhile_append_all_false (p : Char → Bool) (l r : List Char) (hne : l ≠ [])
    (h : ∀ c ∈ l, p c = false) : (l ++ r).dropWhile p = l ++ r := by
  cases l with
  | nil => exact absurd rfl hne
  | cons c t => simp [List.dropWhile, h c (List.mem_cons_self c t)]

theorem dropWhile_head_false (p : Char → Bool) (l : List Char) (c : Char)
    (hc : l.head? = some c) (h : p c = false) : l.dropWhile p = l := by
  cases l with
  | nil => simp at hc
  | cons a t =>
    have : a = c := by simpa using hc
    subst this
    simp [List.dropWhile, h]

theorem isDigit_digitChar10 (d : Nat) (h : d < 10) : (digitChar10 d).isDigit = true := by
  interval_cases d <;> decide

theorem digitVal_digitChar10 (d : Nat) (h : d < 10) : digitVal (digitChar10 d) = d := by
  interval_cases d <;> decide

theorem isDigit_not_space (c : Char) (h : c.isDigit = true) : isSpaceChar c = false := by
  by_contra hne
  have ht : isSpaceChar c = true := by
    cases hb : isSpaceChar c
    · exact absurd hb hne
    · rfl
  simp only [isSpaceChar, Bool.or_eq_true, decide_eq_true_eq] at ht
  rcases ht with ((((h1 | h1) | h1) | h1) | h1) | h1 <;> subst h1 <;>
    exact absurd h (by decide)

theorem isDigit_ne_hash (c : Char) (h : c.isDigit = true) : c ≠ '#' := by
  intro h1; subst h1; exact absurd h (by decide)

theorem isDigit_ne_minus (c : Char) (h : c.isDigit = true) : c ≠ '-' := by
  intro h1; subst h1; exact absurd h (by decide)

theorem isDigit_ne_plus (c : Char) (h : c.isDigit = true) : c ≠ '+' := by
  intro h1; subst h1; exact absurd h (by decide)

theorem isDigit_ne_newline (c : Char) (h : c.isDigit = true) : c ≠ '\n' := by
  intro h1; subst h1; exact absurd h (by decide)

/-! ### Lemmas about decimal rendering and parsing -/

theorem natToDigitsAux_eq_digits : ∀ fuel n acc, 0 < n → n < 10 ^ fuel →
    natToDigitsAux fuel n acc = ((Nat.digits 10 n).map digitChar10).reverse ++ acc := by
  intro fuel
  induction fuel with
  | zero => intro n acc h1 h2; simp at h2; omega
  | succ f ih =>
    intro n acc h1 h2
    by_cases hn : n < 10
    · rw [Nat.digits_def' (by norm_num : 1 < 10) h1,
        Nat.mod_eq_of_lt hn, Nat.div_eq_of_lt hn]
      simp [natToDigitsAux, hn]
    · have h10 : 0 < n / 10 := Nat.div_pos (le_of_not_lt hn) (by norm_num)
      have hlt : n / 10 < 10 ^ f := by
        rw [Nat.div_lt_iff_lt_mul (by norm_num : 0 < 10)]
        calc n < 10 ^ (f + 1) := h2
        _ = 10 ^ f * 10 := by rw [pow_succ]
      rw [show natToDigitsAux (f + 1) n acc
            = natToDigitsAux f (n / 10) (digitChar10 (n % 10) :: acc) by
          simp [natToDigitsAux, hn]]
      rw [ih (n / 10) _ h10 hlt]
      rw [Nat.digits_def' (by norm_num : 1 < 10) h1]
      simp

theorem natChars_eq (n : Nat) (h : 0 < n) :
    natChars n = ((Nat.digits 10 n).map digitChar10).reverse := by
  unfold natChars
  have hb : n < 10 ^ (n + 1) := by
    calc n < 2 ^ n := Nat.lt_two_pow n
    _ ≤ 10 ^ n := Nat.pow_le_pow_left (by norm_num) n
    _ ≤ 10 ^ (n + 1) := Nat.pow_le_pow_right (by norm_num) (Nat.le_succ n)
  rw [natToDigitsAux_eq_digits (n + 1) n [] h hb]
  simp

theorem natChars_all_digit (n : Nat) : ∀ c ∈ natChars n, c.isDigit = true := by
  rcases Nat.eq_zero_or_pos n with h | h
  · subst h
    intro c hc
    rw [show natChars 0 = ['0'] from rfl] at hc
    simp at hc
    subst hc
    decide
  · rw [natChars_eq n h]
    intro c hc
    simp only [List.mem_reverse, List.mem_map] at hc
    obtain ⟨d, hd, rfl⟩ := hc
    exact isDigit_digitChar10 d (Nat.digits_lt_base (by norm_num) hd)

theorem natChars_ne_nil (n : Nat) : natChars n ≠ [] := by
  rcases Nat.eq_zero_or_pos n with h | h
  · subst h; decide
  · rw [natChars_eq n h]
    simp [Nat.digits_ne_nil_iff_ne_zero]
    omega

theorem natChars_nonspace (n : Nat) : ∀ c ∈ natChars n, isSpaceChar c = false :=
  fun c hc => isDigit_not_space c (natChars_all_digit n c hc)

theorem natChars_no_newline (n : Nat) : '\n' ∉ natChars n := by
  intro hc
  exact isDigit_ne_newline _ (natChars_all_digit n _ hc) rfl

theorem foldl_digit_chars (ds : List Nat) (a : Nat) (h : ∀ d ∈ ds, d < 10) :
    ((ds.map digitChar10).reverse).foldl (fun x c => 10 * x + digitVal c) a
      = a * 10 ^ ds.length + Nat.ofDigits 10 ds := by
  induction ds generalizing a with
  | nil => simp
  | cons d ds' ih =>
    have hd : d < 10 := h d (List.mem_cons_self _ _)
    have h' : ∀ x ∈ ds', x < 10 := fun x hx => h x (List.mem_cons_of_mem _ hx)
    simp only [List.map_cons, List.reverse_cons, List.foldl_append, List.foldl_cons,
      List.foldl_nil, List.length_cons]
    rw [ih _ h', digitVal_digitChar10 d hd, Nat.ofDigits_cons, pow_succ]
    ring

theorem pyStrip_all_nonspace (l : List Char) (h : ∀ c ∈ l, isSpaceChar c = false) :
    pyStrip l = l := by
  unfold pyStrip pyStripL pyRstrip
  rw [dropWhile_all_false _ _ h,
    dropWhile_all_false _ _ (fun c hc => h c (List.mem_reverse.mp hc)),
    List.reverse_reverse]

theorem mem_of_getLast?_eq (l : List Char) (c : Char) (h : l.getLast? = some c) :
    c ∈ l := by
  cases l with
  | nil => simp at h
  | cons a t =>
    rw [List.getLast?_eq_getLast_of_ne_nil (by simp)] at h
    have h2 := Option.some.inj h
    rw [← h2]
    exact List.getLast_mem _

theorem pyStrip_append_newline (T : List Char) (hT : T ≠ [])
    (hhead : ∀ c, T.head? = some c → isSpaceChar c = false)
    (hlast : ∀ c, T.getLast? = some c → isSpaceChar c = false) :
    pyStrip (T ++ ['\n']) = T := by
  unfold pyStrip pyStripL pyRstrip
  obtain ⟨t0, T', rfl⟩ : ∃ t0 T', T = t0 :: T' := by
    cases T with
    | nil => exact absurd rfl hT
    | cons a t => exact ⟨a, t, rfl⟩
  rw [dropWhile_head_false isSpaceChar ((t0 :: T') ++ ['\n']) t0 (by rfl) (hhead t0 rfl)]
  rw [show ((t0 :: T') ++ ['\n']).reverse = '\n' :: (t0 :: T').reverse by
    simp [List.reverse_append]]
  rw [show List.dropWhile isSpaceChar ('\n' :: (t0 :: T').reverse)
        = List.dropWhile isSpaceChar ((t0 :: T').reverse) by
      simp [List.dropWhile, show isSpaceChar '\n' = true from rfl]]
  obtain ⟨c, hcl⟩ : ∃ c, (t0 :: T').getLast? = some c :=
    ⟨_, List.getLast?_eq_getLast_of_ne_nil (by simp)⟩
  rw [dropWhile_head_false _ _ c (by rw [List.head?_reverse]; exact hcl) (hlast c hcl)]
  exact List.reverse_reverse _

theorem parseDigits_natChars (n : Nat) : parseDigits (natChars n) = some n := by
  rcases Nat.eq_zero_or_pos n with h | h
  · subst h; decide
  · have hne : (natChars n).isEmpty = false := by
      simp [List.isEmpty_iff, natChars_ne_nil n]
    have hall : (natChars n).all (fun c => c.isDigit) = true := by
      rw [List.all_eq_true]
      exact natChars_all_digit n
    unfold parseDigits
    rw [hne, hall]
    simp only [Bool.false_eq_true, if_false, if_true]
    congr 1
    rw [natChars_eq n h,
      foldl_digit_chars _ 0 (fun d hd => Nat.digits_lt_base (by norm_num) hd)]
    simp [Nat.ofDigits_digits]

theorem pyInt_of_strip_natChars (s : List Char) (n : Nat) (h : pyStrip s = natChars n) :
    pyInt s = some (n : Int) := by
  obtain ⟨c, rest, hc⟩ : ∃ c rest, natChars n = c :: rest := by
    cases hnc : natChars n with
    | nil => exact absurd hnc (natChars_ne_nil n)
    | cons c rest => exact ⟨c, rest, rfl⟩
  have hd : c.isDigit = true :=
    natChars_all_digit n c (by rw [hc]; exact List.mem_cons_self c rest)
  unfold pyInt
  rw [h, hc]
  simp only [List.head?_cons, Option.some.injEq, List.isEmpty_cons]
  rw [if_neg (isDigit_ne_minus c hd), if_neg (isDigit_ne_plus c hd),
    if_neg (by simp : ¬ (false = true)), ← hc, parseDigits_natChars]
  rfl

theorem pyInt_natChars (n : Nat) : pyInt (natChars n) = some (n : Int) :=
  pyInt_of_strip_natChars _ n (pyStrip_all_nonspace _ (natChars_nonspace n))

theorem splitAux_nonspace_run (A : List Char) (rest acc : List Char)
    (hA : ∀ c ∈ A, isSpaceChar c = false) :
    splitAux (A ++ rest) acc = splitAux rest (A.reverse ++ acc) := by
  induction A generalizing acc with
  | nil => simp
  | cons c A' ih =>
    have hc : isSpaceChar c = false := hA c (List.mem_cons_self _ _)
    have h' : ∀ x ∈ A', isSpaceChar x = false := fun x hx => hA x (List.mem_cons_of_mem _ hx)
    simp only [List.cons_append, splitAux, hc, Bool.false_eq_true, if_false,
      List.append_eq]
    rw [ih _ h']
    simp

theorem pySplit_two_tokens (A B : List Char) (hA : A ≠ []) (hB : B ≠ [])
    (hAn : ∀ c ∈ A, isSpaceChar c = false) (hBn : ∀ c ∈ B, isSpaceChar c = false) :
    pySplit (A ++ ' ' :: B) = [A, B] := by
  unfold pySplit
  rw [splitAux_nonspace_run A (' ' :: B) [] hAn]
  have h1 : splitAux (' ' :: B) (A.reverse ++ []) = A :: splitAux B [] := by
    simp only [splitAux, show isSpaceChar ' ' = true from rfl, if_true]
    rw [if_neg (by simp [hA])]
    simp
  have h2 : splitAux B [] = [B] := by
    have h3 := splitAux_nonspace_run B [] [] hBn
    simp only [List.append_nil] at h3
    rw [h3]
    simp only [splitAux]
    rw [if_neg (by simp [hB])]
    simp
  rw [h1, h2]

theorem whline_tokens (w h : Nat) :
    pySplit (pyStrip ((natChars w ++ ' ' :: natChars h) ++ ['\n']))
      = [natChars w, natChars h] := by
  have hA := natChars_ne_nil w
  have hB := natChars_ne_nil h
  have hhead : ∀ c, (natChars w ++ ' ' :: natChars h).head? = some c →
      isSpaceChar c = false := by
    intro c hc
    rw [List.head?_append_of_ne_nil _ hA] at hc
    exact isDigit_not_space c (natChars_all_digit w c (by
      cases hnc : natChars w with
      | nil => exact absurd hnc hA
      | cons a t =>
        rw [hnc] at hc
        simp only [List.head?_cons, Option.some.injEq] at hc
        rw [hc]
        exact List.mem_cons_self c t))
  have hlast : ∀ c, (natChars w ++ ' ' :: natChars h).getLast? = some c →
      isSpaceChar c = false := by
    intro c hc
    rw [List.getLast?_append_cons] at hc
    rw [show (' ' :: natChars h) = [' '] ++ natChars h from rfl,
      List.getLast?_append_of_ne_nil _ hB] at hc
    exact isDigit_not_space c (natChars_all_digit h c (mem_of_getLast?_eq _ c hc))
  rw [pyStrip_append_newline _ (by simp) hhead hlast]
  exact pySplit_two_tokens _ _ hA hB (natChars_nonspace w) (natChars_nonspace h)

theorem maxline_pyInt (m : Nat) : pyInt (natChars m ++ ['\n']) = some (m : Int) := by
  apply pyInt_of_strip_natChars
  apply pyStrip_append_newline _ (natChars_ne_nil m)
  · intro c hc
    exact isDigit_not_space c (natChars_all_digit m c (by
      cases hnc : natChars m with
      | nil => exact absurd hnc (natChars_ne_nil m)
      | cons a t =>
        rw [hnc] at hc
        simp only [List.head?_cons, Option.some.injEq] at hc
        rw [hc]
        exact List.mem_cons_self c t))
  · intro c hc
    exact isDigit_not_space c (natChars_all_digit m c (mem_of_getLast?_eq _ c hc))

/-! ### Lemmas about the comment loop and the full decoder -/

theorem commentWF_cases (c : List Char) (h : commentWF c = true) :
    c = [] ∨ ∃ body, c = body ++ ['\n'] ∧ '\n' ∉ body := by
  unfold commentWF at h
  simp only [Bool.or_eq_true, Bool.and_eq_true, Bool.not_eq_true', decide_eq_true_eq,
    decide_eq_false_iff_not, List.isEmpty_iff] at h
  rcases h with h | ⟨h1, h2⟩
  · exact Or.inl h
  · right
    have hne : c ≠ [] := by
      intro h0
      subst h0
      simp at h1
    refine ⟨c.dropLast, ?_, h2⟩
    rw [List.getLast?_eq_getLast_of_ne_nil hne] at h1
    have h3 := Option.some.inj h1
    conv_lhs => rw [← List.dropLast_append_getLast hne]
    rw [h3]

theorem readCommentsAux_no_comment (fuel : Nat) (A R' : List Char)
    (hA : '\n' ∉ A) (hh : A.head? ≠ some '#') :
    readCommentsAux fuel (A ++ '\n' :: R') = ([], A ++ ['\n'], R') := by
  have hrl := readLine_append A R' hA
  have hcond2 : (A ++ ['\n']).head? ≠ some '#' := by
    cases A with
    | nil => decide
    | cons a A'' => simpa using hh
  cases fuel with
  | zero => simp [readCommentsAux, hrl]
  | succ f =>
    simp [readCommentsAux, hrl, hcond2]
    exact fun hf => absurd hf hh

theorem readComments_encodeComment (comment A R' : List Char) (hc : commentWF comment = true)
    (hA : '\n' ∉ A) (hh : A.head? ≠ some '#') :
    readComments (encodeComment comment ++ (A ++ '\n' :: R')) = (comment, A ++ ['\n'], R') := by
  unfold readComments
  rcases commentWF_cases comment hc with hnil | ⟨body, rfl, hbody⟩
  · subst hnil
    simp only [encodeComment, List.isEmpty_nil, if_true, List.nil_append]
    exact readCommentsAux_no_comment _ A R' hA hh
  · have henc : encodeComment (body ++ ['\n']) = '#' :: (body ++ ['\n']) := by
      simp [encodeComment]
    rw [henc]
    have hs : ('#' :: (body ++ ['\n'])) ++ (A ++ '\n' :: R')
        = '#' :: (body ++ '\n' :: (A ++ '\n' :: R')) := by simp
    rw [hs]
    have hrl : readLine ('#' :: (body ++ '\n' :: (A ++ '\n' :: R')))
        = (('#' :: body) ++ ['\n'], A ++ '\n' :: R') := by
      rw [← List.cons_append]
      exact readLine_append ('#' :: body) _ (by
        intro hmem
        rcases List.mem_cons.mp hmem with h1 | h1
        · exact absurd h1 (by decide)
        · exact hbody h1)
    simp only [List.length_cons]
    simp only [readCommentsAux, hrl, List.cons_append, List.head?_cons, List.tail_cons,
      readCommentsAux_no_comment _ A R' hA hh, if_true]
    simp

theorem read_pnm_writePnmWith (comment : List Char) (w h maxv : Nat) (data : List Char)
    (hc : commentWF comment = true) :
    read_pnm (writePnmWith comment w h maxv data)
      = if maxv = 255 then
          (if data.length < h * w * 3 then Except.error DecodeError.TruncatedStream
           else Except.ok (some (⟨w, h, data.take (h * w * 3), comment⟩,
              data.drop (h * w * 3))))
        else Except.error DecodeError.UnsupportedFormat := by
  have hA_nl : '\n' ∉ natChars w ++ ' ' :: natChars h := by
    intro hmem
    rcases List.mem_append.mp hmem with h1 | h1
    · exact natChars_no_newline w h1
    · rcases List.mem_cons.mp h1 with h2 | h2
      · exact absurd h2 (by decide)
      · exact natChars_no_newline h h2
  have hA_head : (natChars w ++ ' ' :: natChars h).head? ≠ some '#' := by
    rw [List.head?_append_of_ne_nil _ (natChars_ne_nil w)]
    intro hcc
    cases hnc : natChars w with
    | nil => exact absurd hnc (natChars_ne_nil w)
    | cons a t =>
      rw [hnc] at hcc
      simp only [List.head?_cons, Option.some.injEq] at hcc
      exact isDigit_ne_hash a
        (natChars_all_digit w a (by rw [hnc]; exact List.mem_cons_self a t)) hcc
  have hmagic : readLine ('P' :: '6' :: '\n' ::
        (encodeComment comment ++ (natChars w ++ ' ' :: natChars h ++ '\n' ::
          (natChars maxv ++ '\n' :: data))))
      = (['P', '6', '\n'], encodeComment comment ++ (natChars w ++ ' ' :: natChars h ++ '\n' ::
          (natChars maxv ++ '\n' :: data))) :=
    readLine_append ['P', '6'] _ (by decide)
  have hcomments : readComments (encodeComment comment ++
        (natChars w ++ ' ' :: natChars h ++ '\n' :: (natChars maxv ++ '\n' :: data)))
      = (comment, (natChars w ++ ' ' :: natChars h) ++ ['\n'],
          natChars maxv ++ '\n' :: data) := by
    rw [show (natChars w ++ ' ' :: natChars h ++ '\n' :: (natChars maxv ++ '\n' :: data))
          = ((natChars w ++ ' ' :: natChars h) ++ '\n' :: (natChars maxv ++ '\n' :: data))
        by simp]
    exact readComments_encodeComment comment (natChars w ++ ' ' :: natChars h)
      (natChars maxv ++ '\n' :: data) hc hA_nl hA_head
  have hmaxline : readLine (natChars maxv ++ '\n' :: data) = (natChars maxv ++ ['\n'], data) :=
    readLine_append _ _ (natChars_no_newline maxv)
  unfold writePnmWith read_pnm
  rw [hmagic]
  simp only [hcomments, hmaxline, whline_tokens w h, pyInt_natChars, maxline_pyInt,
    List.isEmpty_cons, Bool.false_eq_true, if_false,
    show pyRstrip ['P', '6', '\n'] = ['P', '6'] from rfl, if_pos rfl]
  have hw0 : ¬((w : Int) < 0 ∨ (h : Int) < 0) := by
    push_neg
    exact ⟨Int.natCast_nonneg w, Int.natCast_nonneg h⟩
  by_cases h255 : maxv = 255
  · subst h255
    simp only [show ((255 : Nat) : Int) = 255 by norm_num, eq_self_iff_true, if_true,
      if_neg hw0, Int.toNat_natCast]
  · have hcast : ¬((maxv : Int) = 255) := fun hx => h255 (by exact_mod_cast hx)
    simp only [if_neg hcast, if_neg h255, if_true]

/-! ### Claims about the Frame Decoder (C5, C6, C7) -/

/-- Claim C5: for every input byte stream whose frame header declares a
maximum sample value different from 255, frame decoding fails with
`UnsupportedFormat`; the `Except.error` result carries no partial `Frame`,
so nothing is returned to the caller. -/
theorem claim_C5_max_not_255_unsupported (comment : List Char) (w h maxv : Nat)
    (data : List Char) (hc : commentWF comment = true) (hm : maxv ≠ 255) :
    read_pnm (writePnmWith comment w h maxv data)
      = Except.error DecodeError.UnsupportedFormat := by
  rw [read_pnm_writePnmWith comment w h maxv data hc, if_neg hm]

/-- Witness for C5 at a concrete input (maximum sample value 100). -/
theorem claim_C5_witness :
    commentWF ['7', '\n'] = true ∧ (100 : Nat) ≠ 255 ∧
      read_pnm (writePnmWith ['7', '\n'] 2 2 100 ['a'])
        = Except.error DecodeError.UnsupportedFormat :=
  ⟨by decide, by decide,
    claim_C5_max_not_255_unsupported ['7', '\n'] 2 2 100 ['a'] (by decide) (by decide)⟩

/-- Claim C6: for every input byte stream whose header declares width and
height but which ends before `width * height * 3` raw pixel bytes are
available, frame decoding fails with `TruncatedStream` instead of returning
a `Frame` with a short pixel buffer. -/
theorem claim_C6_short_data_truncated (comment : List Char) (w h : Nat) (data : List Char)
    (hc : commentWF comment = true) (hlen : data.length < w * h * 3) :
    read_pnm (writePnmWith comment w h 255 data)
      = Except.error DecodeError.TruncatedStream := by
  rw [read_pnm_writePnmWith comment w h 255 data hc, if_pos rfl,
    show h * w * 3 = w * h * 3 from by ring, if_pos hlen]

/-- Witness for C6 at a concrete input (1×1 frame with only 1 of 3 bytes). -/
theorem claim_C6_witness :
    commentWF ['7', '\n'] = true ∧ (['a'] : List Char).length < 1 * 1 * 3 ∧
      read_pnm (writePnmWith ['7', '\n'] 1 1 255 ['a'])
        = Except.error DecodeError.TruncatedStream :=
  ⟨by decide, by decide,
    claim_C6_short_data_truncated ['7', '\n'] 1 1 ['a'] (by decide) (by decide)⟩

/-- Claim C7: for every well-formed frame byte sequence with exactly
`width * height * 3` bytes of pixel data, decoding and then re-encoding with
the same header fields is the identity: decoding the encoded frame returns
exactly the original pixel buffer, width, height (and tag), with the stream
fully consumed. -/
theorem claim_C7_roundtrip (f : Frame) (hc : commentWF f.comment = true)
    (hlen : f.data.length = f.width * f.height * 3) :
    read_pnm (writePnm f) = Except.ok (some (f, [])) := by
  unfold writePnm
  rw [read_pnm_writePnmWith f.comment f.width f.height 255 f.data hc, if_pos rfl,
    show f.height * f.width * 3 = f.width * f.height * 3 from by ring,
    if_neg (by rw [hlen]; exact lt_irrefl _)]
  rw [← hlen, List.take_length, List.drop_length]

/-- Witness for C7 at a concrete 1×1 frame. -/
theorem claim_C7_witness :
    commentWF (['7', '\n']) = true ∧
      (['a', 'b', 'c'] : List Char).length = 1 * 1 * 3 ∧
      read_pnm (writePnm ⟨1, 1, ['a', 'b', 'c'], ['7', '\n']⟩)
        = Except.ok (some (⟨1, 1, ['a', 'b', 'c'], ['7', '\n']⟩, [])) :=
  ⟨by decide, by decide,
    claim_C7_roundtrip ⟨1, 1, ['a', 'b', 'c'], ['7', '\n']⟩ (by decide) (by decide)⟩

/-! ### Lemmas about the divergence tracker -/

theorem countStateDiffs_append (a b : List Event) :
    countStateDiffs (a ++ b) = countStateDiffs a + countStateDiffs b := by
  simp [countStateDiffs, List.filter_append]

theorem countDumpStates_append (a b : List Event) :
    countDumpStates (a ++ b) = countDumpStates a + countDumpStates b := by
  simp [countDumpStates, List.filter_append]

theorem countScoreLines_append (a b : List Event) :
    countScoreLines (a ++ b) = countScoreLines a + countScoreLines b := by
  simp [countScoreLines, List.filter_append]

theorem trackStep_state (opts : Options) (st : DivState) (c : Int) (p : Rat) :
    (trackStep opts st c p).1
      = if p < opts.threshold then { st with last_bad := c }
        else { st with last_good := c } := by
  unfold trackStep
  by_cases h1 : p < opts.threshold <;> simp [h1]

theorem countStateDiffs_trackStep (opts : Options) (st : DivState) (c : Int) (p : Rat) :
    countStateDiffs (trackStep opts st c p).2
      = if p < opts.threshold ∧ st.last_bad < st.last_good then 1 else 0 := by
  unfold trackStep
  by_cases h1 : p < opts.threshold
  · by_cases h2 : st.last_bad < st.last_good <;>
      by_cases h3 : opts.diffPrefix ≠ "" <;>
        simp [h1, h2, h3, diff_state, countStateDiffs, List.filter, isStateDiffReq]
  · simp [h1, countStateDiffs, List.filter, isStateDiffReq]

theorem countDumpStates_trackStep (opts : Options) (st : DivState) (c : Int) (p : Rat) :
    countDumpStates (trackStep opts st c p).2
      = if p < opts.threshold ∧ st.last_bad < st.last_good then 2 else 0 := by
  unfold trackStep
  by_cases h1 : p < opts.threshold
  · by_cases h2 : st.last_bad < st.last_good <;>
      by_cases h3 : opts.diffPrefix ≠ "" <;>
        simp [h1, h2, h3, diff_state, countDumpStates, List.filter, isDumpState]
  · simp [h1, countDumpStates, List.filter, isDumpState]

theorem countScoreLines_trackStep (opts : Options) (st : DivState) (c : Int) (p : Rat) :
    countScoreLines (trackStep opts st c p).2 = 1 := by
  unfold trackStep
  by_cases h1 : p < opts.threshold
  · by_cases h2 : st.last_bad < st.last_good <;>
      by_cases h3 : opts.diffPrefix ≠ "" <;>
        simp [h1, h2, h3, diff_state, countScoreLines, List.filter, isScoreLine]
  · simp [h1, countScoreLines, List.filter, isScoreLine]

theorem runTracker_cons (opts : Options) (st : DivState) (c : Int) (p : Rat)
    (rest : List (Int × Rat)) :
    runTracker opts st ((c, p) :: rest)
      = ((runTracker opts (trackStep opts st c p).1 rest).1,
         (trackStep opts st c p).2 ++ (runTracker opts (trackStep opts st c p).1 rest).2) :=
  rfl

theorem runTracker_count (opts : Options) :
    ∀ (results : List (Int × Rat)) (st : DivState),
      ((results.map Prod.fst).Pairwise (· < ·)) →
      (∀ r ∈ results, st.last_good < r.1 ∧ st.last_bad < r.1) →
      countStateDiffs (runTracker opts st results).2
        = countGoodToBad (decide (st.last_bad < st.last_good)) (badFlags opts results) := by
  intro results
  induction results with
  | nil =>
    intro st _ _
    simp [runTracker, countStateDiffs, badFlags, countGoodToBad]
  | cons r rest ih =>
    intro st hmono hlt
    obtain ⟨c, p⟩ := r
    have hpc : ∀ b ∈ rest.map Prod.fst, c < b :=
      (List.pairwise_cons.mp (by simpa using hmono)).1
    have hmono' : (rest.map Prod.fst).Pairwise (· < ·) :=
      (List.pairwise_cons.mp (by simpa using hmono)).2
    have hheadg : st.last_good < c := (hlt (c, p) (List.mem_cons_self _ _)).1
    have hheadb : st.last_bad < c := (hlt (c, p) (List.mem_cons_self _ _)).2
    rw [runTracker_cons]
    simp only []
    rw [countStateDiffs_append, countStateDiffs_trackStep]
    have hbf : badFlags opts ((c, p) :: rest)
        = decide (p < opts.threshold) :: badFlags opts rest := by
      simp [badFlags]
    rw [hbf]
    by_cases hp : p < opts.threshold
    · have hst : (trackStep opts st c p).1 = { st with last_bad := c } := by
        rw [trackStep_state, if_pos hp]
      have hlt' : ∀ r ∈ rest, ({ st with last_bad := c } : DivState).last_good < r.1
          ∧ ({ st with last_bad := c } : DivState).last_bad < r.1 := by
        intro r hr
        exact ⟨(hlt r (List.mem_cons_of_mem _ hr)).1,
          hpc r.1 (List.mem_map.mpr ⟨r, hr, rfl⟩)⟩
      rw [hst, ih { st with last_bad := c } hmono' hlt']
      have hdec : decide (({ st with last_bad := c } : DivState).last_bad
          < ({ st with last_bad := c } : DivState).last_good) = false := by
        simp only [decide_eq_false_iff_not]
        exact fun hcg => absurd (lt_trans hheadg hcg) (lt_irrefl st.last_good)
      rw [hdec]
      rw [show countGoodToBad (decide (st.last_bad < st.last_good))
            (decide (p < opts.threshold) :: badFlags opts rest)
          = (if decide (p < opts.threshold) && decide (st.last_bad < st.last_good)
              then 1 else 0)
            + countGoodToBad (!(decide (p < opts.threshold))) (badFlags opts rest)
        from rfl]
      rw [show (decide (p < opts.threshold)) = true by simp [hp]]
      by_cases h2 : st.last_bad < st.last_good
      · simp [h2, hp]
      · simp [h2, hp]
    · have hst : (trackStep opts st c p).1 = { st with last_good := c } := by
        rw [trackStep_state, if_neg hp]
      have hlt' : ∀ r ∈ rest, ({ st with last_good := c } : DivState).last_good < r.1
          ∧ ({ st with last_good := c } : DivState).last_bad < r.1 := by
        intro r hr
        exact ⟨hpc r.1 (List.mem_map.mpr ⟨r, hr, rfl⟩),
          (hlt r (List.mem_cons_of_mem _ hr)).2⟩
      rw [hst, ih { st with last_good := c } hmono' hlt']
      have hdec : decide (({ st with last_good := c } : DivState).last_bad
          < ({ st with last_good := c } : DivState).last_good) = true := by
        simp only [decide_eq_true_eq]
        exact hheadb
      rw [hdec]
      rw [show countGoodToBad (decide (st.last_bad < st.last_good))
            (decide (p < opts.threshold) :: badFlags opts rest)
          = (if decide (p < opts.threshold) && decide (st.last_bad < st.last_good)
              then 1 else 0)
            + countGoodToBad (!(decide (p < opts.threshold))) (badFlags opts rest)
        from rfl]
      rw [show (decide (p < opts.threshold)) = false by simp [hp]]
      simp [hp]

/-! ### Claims about the divergence tracker (C1, C2, C9) -/

/-- Counterexample to claim C1 as stated: for the score sequence `[5]`
(one divergent frame at the very start) there is one maximal contiguous run
of divergent frames but zero state-diff requests are emitted, so "exactly
one state-diff per maximal contiguous run of divergent frames" fails. -/
theorem claim_C1_counterexample :
    countBadRuns (badFlags opts0 [((0 : Int), (5 : Rat))]) = 1
    ∧ countStateDiffs (runTracker opts0 initState [((0 : Int), (5 : Rat))]).2 = 0 :=
  ⟨rfl, rfl⟩

/-- Claim C1 (amended): over any comparison-result sequence with strictly
increasing nonnegative call indices, the number of state-diff requests equals
the number of good-to-bad transitions — exactly one per maximal contiguous
run of divergent frames that is immediately preceded by an acceptable frame,
and none for a divergent run at the very start (never one per divergent
frame).  For `[20, 5, 3, 20, 4]` against threshold 12 this gives exactly two
(see the witness). -/
theorem claim_C1_amended (opts : Options) (results : List (Int × Rat))
    (hmono : (results.map Prod.fst).Pairwise (· < ·))
    (hpos : ∀ r ∈ results, 0 ≤ r.1) :
    countStateDiffs (runTracker opts initState results).2
      = countGoodToBad false (badFlags opts results) := by
  have h := runTracker_count opts results initState hmono (fun r hr =>
    ⟨lt_of_lt_of_le (show initState.last_good < 0 by norm_num [initState]) (hpos r hr),
      lt_of_lt_of_le (show initState.last_bad < 0 by norm_num [initState]) (hpos r hr)⟩)
  rw [show decide (initState.last_bad < initState.last_good) = false from rfl] at h
  exact h

/-- Witness for the amended C1 at the spec's example `[20, 5, 3, 20, 4]`
against threshold 12: exactly two state-diff requests. -/
theorem claim_C1_witness :
    ((resultsSpec.map Prod.fst).Pairwise (· < ·)) ∧ (∀ r ∈ resultsSpec, 0 ≤ r.1)
    ∧ countStateDiffs (runTracker opts0 initState resultsSpec).2
        = countGoodToBad false (badFlags opts0 resultsSpec)
    ∧ countStateDiffs (runTracker opts0 initState resultsSpec).2 = 2 :=
  ⟨by decide, by decide, claim_C1_amended opts0 resultsSpec (by decide) (by decide), rfl⟩

/-- Claim C2: per comparison result with call index `c`: if the score is
acceptable (not below the threshold) the tracker sets `last_good = c` and
emits only the report line (no state diff, no image, no dump); otherwise
`last_bad` is set to `c` and `dump_state` is requested on the source harness
at both `last_good` and `c` if and only if `last_bad < last_good` held. -/
theorem claim_C2_step_spec (opts : Options) (st : DivState) (c : Int) (p : Rat) :
    (¬ p < opts.threshold →
        trackStep opts st c p = ({ st with last_good := c }, [Event.scoreLine c p]))
    ∧ (p < opts.threshold →
        (trackStep opts st c p).1 = { st with last_bad := c }
        ∧ ((Event.dumpState Side.src st.last_good ∈ (trackStep opts st c p).2
              ∧ Event.dumpState Side.src c ∈ (trackStep opts st c p).2)
            ↔ st.last_bad < st.last_good)) := by
  constructor
  · intro hp
    unfold trackStep
    rw [if_neg hp]
  · intro hp
    refine ⟨by rw [trackStep_state, if_pos hp], ?_⟩
    unfold trackStep
    rw [if_pos hp]
    by_cases h2 : st.last_bad < st.last_good <;>
      by_cases h3 : opts.diffPrefix ≠ "" <;>
        simp [h2, h3, diff_state]

/-- Witness for C2: an acceptable frame (score 20) updates `last_good` only;
a divergent frame (score 4) with `last_bad = 1 < last_good = 3` updates
`last_bad` and requests `dump_state` on the source side at 3 and at 5. -/
theorem claim_C2_witness :
    trackStep opts0 ⟨3, 1⟩ 5 20 = ({ last_good := 5, last_bad := 1 }, [Event.scoreLine 5 20])
    ∧ (trackStep opts0 ⟨3, 1⟩ 5 4).1 = { last_good := 3, last_bad := 5 }
    ∧ ((Event.dumpState Side.src 3 ∈ (trackStep opts0 ⟨3, 1⟩ 5 4).2
          ∧ Event.dumpState Side.src 5 ∈ (trackStep opts0 ⟨3, 1⟩ 5 4).2)
        ↔ (1 : Int) < 3) :=
  ⟨(claim_C2_step_spec opts0 ⟨3, 1⟩ 5 20).1 (by decide),
    ((claim_C2_step_spec opts0 ⟨3, 1⟩ 5 4).2 (by decide)).1,
    ((claim_C2_step_spec opts0 ⟨3, 1⟩ 5 4).2 (by decide)).2⟩

theorem runTracker_all_bad (opts : Options) :
    ∀ (results : List (Int × Rat)) (st : DivState),
      st.last_good = -1 → -1 ≤ st.last_bad →
      (∀ r ∈ results, 0 ≤ r.1 ∧ r.2 < opts.threshold) →
      countStateDiffs (runTracker opts st results).2 = 0
      ∧ countDumpStates (runTracker opts st results).2 = 0
      ∧ (runTracker opts st results).1.last_good = -1 := by
  intro results
  induction results with
  | nil =>
    intro st hg _ _
    exact ⟨rfl, rfl, hg⟩
  | cons r rest ih =>
    intro st hg hb h
    obtain ⟨c, p⟩ := r
    have hp : p < opts.threshold := (h (c, p) (List.mem_cons_self _ _)).2
    have hc0 : (0 : Int) ≤ c := (h (c, p) (List.mem_cons_self _ _)).1
    have hcond : ¬ (st.last_bad < st.last_good) := by
      rw [hg]
      omega
    have hst : (trackStep opts st c p).1 = { st with last_bad := c } := by
      rw [trackStep_state, if_pos hp]
    have h1 : countStateDiffs (trackStep opts st c p).2 = 0 := by
      rw [countStateDiffs_trackStep]
      simp [hcond]
    have h2 : countDumpStates (trackStep opts st c p).2 = 0 := by
      rw [countDumpStates_trackStep]
      simp [hcond]
    have ihr := ih ({ st with last_bad := c }) hg (show (-1 : Int) ≤ c by omega)
      (fun r hr => h r (List.mem_cons_of_mem _ hr))
    simp only [runTracker_cons]
    exact ⟨by rw [countStateDiffs_append, h1, hst, ihr.1],
      by rw [countDumpStates_append, h2, hst, ihr.2.1],
      by rw [hst]; exact ihr.2.2⟩

/-- Claim C9: when every frame of the run is divergent and no acceptable
frame has been seen, no state diff and no `dump_state` is ever requested
(the `last_bad < last_good` guard is false from the `-1` sentinels on), and
`last_good` remains `-1` throughout. -/
theorem claim_C9_initial_bad_run (opts : Options) (results : List (Int × Rat))
    (h : ∀ r ∈ results, 0 ≤ r.1 ∧ r.2 < opts.threshold) :
    countStateDiffs (runTracker opts initState results).2 = 0
    ∧ countDumpStates (runTracker opts initState results).2 = 0
    ∧ (runTracker opts initState results).1.last_good = -1 :=
  runTracker_all_bad opts results initState rfl (le_refl _) h

/-- Witness for C9 at the all-divergent sequence `[(0, 5), (1, 3)]`. -/
theorem claim_C9_witness :
    (∀ r ∈ ([(0, 5), (1, 3)] : List (Int × Rat)), 0 ≤ r.1 ∧ r.2 < opts0.threshold)
    ∧ countStateDiffs (runTracker opts0 initState [(0, 5), (1, 3)]).2 = 0
    ∧ countDumpStates (runTracker opts0 initState [(0, 5), (1, 3)]).2 = 0
    ∧ (runTracker opts0 initState [(0, 5), (1, 3)]).1.last_good = -1 :=
  ⟨by decide, (claim_C9_initial_bad_run opts0 _ (by decide)).1,
    (claim_C9_initial_bad_run opts0 _ (by decide)).2.1,
    (claim_C9_initial_bad_run opts0 _ (by decide)).2.2⟩

/-! ### Lemmas and claims about the main loop (C3, C4, C8, C10) -/

/-- Claim C4: if either stream yields end-of-stream at the start of an
iteration the loop ends cleanly with no error, even when the two streams
have different lengths: as long as every actually-paired iteration has
matching, parseable tags, the terminal error is `none`. -/
theorem claim_C4_clean_termination (score : Frame → Frame → Rat) (opts : Options) :
    ∀ (refs srcs : List Frame) (st : DivState),
      (∀ i, i < min refs.length srcs.length →
        ((refs.getD i default).comment = (srcs.getD i default).comment
          ∧ (pyInt ((refs.getD i default).comment)).isSome = true)) →
      (mainLoop score opts st refs srcs).2 = none := by
  intro refs
  induction refs with
  | nil => intro srcs st _; rfl
  | cons rf refs' ih =>
    intro srcs st h
    cases srcs with
    | nil => rfl
    | cons sf srcs' =>
      have h0 := h 0 (by simp [Nat.lt_min])
      simp only [List.getD_cons_zero] at h0
      obtain ⟨hceq, hcparse⟩ := h0
      obtain ⟨cn, hcn⟩ := Option.isSome_iff_exists.mp hcparse
      simp only [mainLoop, if_pos hceq, hcn]
      apply ih
      intro i hi
      have hx := h (i + 1) (by
        simp only [Nat.lt_min, List.length_cons] at hi ⊢
        omega)
      simpa using hx

/-- Witness for C4: streams of different lengths (2 frames vs 1 frame) with
matching tag on the one paired iteration end with no error. -/
theorem claim_C4_witness :
    ([mkFrame ['1'], mkFrame ['2']].length ≠ [mkFrame ['1']].length)
    ∧ (mainLoop score0 opts0 initState
        [mkFrame ['1'], mkFrame ['2']] [mkFrame ['1']]).2 = none :=
  ⟨by decide,
    claim_C4_clean_termination score0 opts0
      [mkFrame ['1'], mkFrame ['2']] [mkFrame ['1']] initState (by decide)⟩

/-- Claim C3: the synchronizer aborts with a desync error carrying both
mismatching tags exactly at the first paired iteration whose tags differ,
and not earlier: all `k` earlier pairs are processed normally (each emits
its report line, so exactly `k` score lines precede the abort). -/
theorem claim_C3_desync_at_first_mismatch (score : Frame → Frame → Rat) (opts : Options) :
    ∀ (k : Nat) (refs srcs : List Frame) (st : DivState),
      k < refs.length → k < srcs.length →
      (∀ i, i < k → ((refs.getD i default).comment = (srcs.getD i default).comment
          ∧ (pyInt ((refs.getD i default).comment)).isSome = true)) →
      (refs.getD k default).comment ≠ (srcs.getD k default).comment →
      (mainLoop score opts st refs srcs).2
          = some (LoopError.desync ((refs.getD k default).comment)
              ((srcs.getD k default).comment))
      ∧ countScoreLines (mainLoop score opts st refs srcs).1 = k := by
  intro k
  induction k with
  | zero =>
    intro refs srcs st h1 h2 _ hne
    cases refs with
    | nil => simp at h1
    | cons rf refs' =>
      cases srcs with
      | nil => simp at h2
      | cons sf srcs' =>
        simp only [List.getD_cons_zero] at hne ⊢
        simp [mainLoop, if_neg hne, countScoreLines]
  | succ k' ih =>
    intro refs srcs st h1 h2 hpre hne
    cases refs with
    | nil => simp at h1
    | cons rf refs' =>
      cases srcs with
      | nil => simp at h2
      | cons sf srcs' =>
        have h0 := hpre 0 (Nat.succ_pos k')
        simp only [List.getD_cons_zero] at h0
        obtain ⟨hceq, hcparse⟩ := h0
        obtain ⟨cn, hcn⟩ := Option.isSome_iff_exists.mp hcparse
        simp only [List.getD_cons_succ] at hne ⊢
        have ihr := ih refs' srcs' (trackStep opts st cn (score rf sf)).1
          (by simpa using h1) (by simpa using h2)
          (fun i hi => by simpa using hpre (i + 1) (Nat.succ_lt_succ hi))
          hne
        simp only [mainLoop, if_pos hceq, hcn]
        refine ⟨ihr.1, ?_⟩
        rw [countScoreLines_append, countScoreLines_trackStep, ihr.2]
        omega

/-- Witness for C3 at the spec's example: tags `[1,2,3]` against `[1,2,4]`
desync exactly at the third pair (two score lines emitted before). -/
theorem claim_C3_witness :
    (mainLoop score0 opts0 initState
        [mkFrame ['1'], mkFrame ['2'], mkFrame ['3']]
        [mkFrame ['1'], mkFrame ['2'], mkFrame ['4']]).2
      = some (LoopError.desync ['3'] ['4'])
    ∧ countScoreLines (mainLoop score0 opts0 initState
        [mkFrame ['1'], mkFrame ['2'], mkFrame ['3']]
        [mkFrame ['1'], mkFrame ['2'], mkFrame ['4']]).1 = 2 :=
  claim_C3_desync_at_first_mismatch score0 opts0 2
    [mkFrame ['1'], mkFrame ['2'], mkFrame ['3']]
    [mkFrame ['1'], mkFrame ['2'], mkFrame ['4']] initState
    (by decide) (by decide) (by decide) (by decide)

theorem trackStep_empty_pfx (t : Rat) (q : String) (st : DivState) (c : Int) (p : Rat) :
    (trackStep ⟨"", t⟩ st c p).1 = (trackStep ⟨q, t⟩ st c p).1
    ∧ (trackStep ⟨"", t⟩ st c p).2
        = (trackStep ⟨q, t⟩ st c p).2.filter (fun e => !(isImageEvent e)) := by
  by_cases hp : p < t <;> by_cases h2 : st.last_bad < st.last_good <;>
    by_cases hq : q = "" <;>
      simp [trackStep, hp, h2, hq, diff_state, isImageEvent, List.filter]

theorem mainLoop_empty_pfx (score : Frame → Frame → Rat) (t : Rat) (q : String) :
    ∀ (refs srcs : List Frame) (st : DivState),
      (mainLoop score ⟨"", t⟩ st refs srcs).1
          = (mainLoop score ⟨q, t⟩ st refs srcs).1.filter (fun e => !(isImageEvent e))
      ∧ (mainLoop score ⟨"", t⟩ st refs srcs).2 = (mainLoop score ⟨q, t⟩ st refs srcs).2 := by
  intro refs
  induction refs with
  | nil => intro srcs st; exact ⟨rfl, rfl⟩
  | cons rf refs' ih =>
    intro srcs st
    cases srcs with
    | nil => exact ⟨rfl, rfl⟩
    | cons sf srcs' =>
      by_cases hceq : rf.comment = sf.comment
      · cases hcn : pyInt rf.comment with
        | none =>
          have hcn2 : pyInt sf.comment = none := by rw [← hceq]; exact hcn
          simp [mainLoop, hceq, hcn, hcn2]
        | some cn =>
          have hstep := trackStep_empty_pfx t q st cn (score rf sf)
          have ihr := ih srcs' (trackStep ⟨q, t⟩ st cn (score rf sf)).1
          simp only [mainLoop, if_pos hceq, hcn]
          constructor
          · rw [List.filter_append, hstep.2, hstep.1, ihr.1]
          · rw [hstep.1]
            exact ihr.2
      · simp [mainLoop, hceq]

/-- Claim C8: with `--diff-prefix` set to the empty string no image file is
ever written, even for divergent frames, while the event trace is otherwise
exactly the non-image event trace (score lines, `dump_state` requests,
state diffs) of the same run under any configured prefix `q`, with the same
terminal outcome. -/
theorem claim_C8_empty_prefix_no_images (score : Frame → Frame → Rat) (t : Rat) (q : String)
    (refs srcs : List Frame) (st : DivState) :
    (∀ e ∈ (mainLoop score ⟨"", t⟩ st refs srcs).1, isImageEvent e = false)
    ∧ (mainLoop score ⟨"", t⟩ st refs srcs).1
        = (mainLoop score ⟨q, t⟩ st refs srcs).1.filter (fun e => !(isImageEvent e))
    ∧ (mainLoop score ⟨"", t⟩ st refs srcs).2 = (mainLoop score ⟨q, t⟩ st refs srcs).2 := by
  have h := mainLoop_empty_pfx score t q refs srcs st
  refine ⟨?_, h.1, h.2⟩
  intro e he
  rw [h.1] at he
  have hf := List.of_mem_filter he
  simpa using hf

/-- Claim C10: tag agreement between the paired frames is decided on the raw
concatenated comment text, before any integer parsing: two tags that differ
as text (`"3"` vs `" 3"`) desync even though both parse to the integer 3;
and a pair with equal but non-numeric tags passes the comparison and only
then fails at `int(ref_comment.strip())`, which parses the reference tag. -/
theorem claim_C10_raw_tag_comparison :
    pyInt [' ', '3'] = some 3 ∧ pyInt ['3'] = some 3
    ∧ (mainLoop score0 opts0 initState [mkFrame ['3']] [mkFrame [' ', '3']]).2
        = some (LoopError.desync ['3'] [' ', '3'])
    ∧ (mainLoop score0 opts0 initState [mkFrame ['a']] [mkFrame ['a']]).2
        = some (LoopError.badCallNo ['a']) :=
  ⟨rfl, rfl, rfl, rfl⟩

/-- Witness for C8 at a concrete divergent run (constant score 1 < 12):
with the empty prefix the trace has no image events and equals the filtered
trace of the `"."`-prefixed run, with the same terminal outcome. -/
theorem claim_C8_witness :
    (∀ e ∈ (mainLoop scoreBad ⟨"", 12⟩ initState [mkFrame ['1']] [mkFrame ['1']]).1,
        isImageEvent e = false)
    ∧ (mainLoop scoreBad ⟨"", 12⟩ initState [mkFrame ['1']] [mkFrame ['1']]).1
        = (mainLoop scoreBad ⟨".", 12⟩ initState [mkFrame ['1']] [mkFrame ['1']]).1.filter
            (fun e => !(isImageEvent e))
    ∧ (mainLoop scoreBad ⟨"", 12⟩ initState [mkFrame ['1']] [mkFrame ['1']]).2
        = (mainLoop scoreBad ⟨".", 12⟩ initState [mkFrame ['1']] [mkFrame ['1']]).2 :=
  claim_C8_empty_prefix_no_images scoreBad 12 "." [mkFrame ['1']] [mkFrame ['1']] initState

end Retracediff
